import Mathlib

/-!
Verification of the gohttpclient interceptor pipeline: a shallow embedding of
the chain composer (request_handler.go), the retry/backoff controller
(retry.go), the cache interceptor and transaction codec (cache.go), the
storage backends (cacher.go) and the body-size interceptor (body_size.go),
together with theorems settling the specification claims.

Modelling conventions:
  * Go errors are modelled by the inductive `GoError`; `errors.Wrap`/`Wrapf`
    from github.com/pkg/errors become `GoError.wrap cause msg` (message text
    prepended, cause retained for `errors.Is` traversal).
  * Go `nil` pointers/slices become `Option`.
  * `http.Header` (a map from canonical names to value lists) is modelled as
    an association list `List (String × List String)`; Go map iteration order
    is represented by list order, and keys are canonical MIME header names.
  * Byte slices become `List Nat`; timestamps (`UnixNano`) and durations
    become `Int` nanoseconds.
-/

/-- Model of Go errors. `msg` is `errors.New`, `canceled` is
`context.Canceled`, and `wrap c m` is `errors.Wrap`/`Wrapf` with cause `c`
and prefix message `m`. -/
inductive GoError where
  | msg : String → GoError
  | canceled : GoError
  | wrap : GoError → String → GoError
deriving DecidableEq, Repr

/-- Error text, as Go's `Error()` on a pkg/errors wrapped error:
`msg ++ ": " ++ cause.Error()`. -/
def goErrorText : GoError → String
  | .msg s => s
  | .canceled => "context canceled"
  | .wrap c m => m ++ ": " ++ goErrorText c

/-- `fmt.Sprintf("%v", err)` on a possibly-nil error value. -/
def goErrorTextOpt : Option GoError → String
  | none => "<nil>"
  | some e => goErrorText e

/-- Model of `errors.Is`: target equality, unwrapping through `wrap` causes. -/
def errorsIs (e t : GoError) : Bool :=
  if e = t then true
  else
    match e with
    | .wrap c _ => errorsIs c t
    | _ => false

/-- First binding for key `k` in an association list (Go map lookup). -/
def assocFind (l : List (String × α)) (k : String) : Option α :=
  (l.find? (fun p => p.1 = k)).map (fun p => p.2)

/-- Go map store `m[k] = v`: replaces any existing binding for `k`. -/
def assocSet (l : List (String × α)) (k : String) (v : α) : List (String × α) :=
  (k, v) :: l.filter (fun p => p.1 ≠ k)

/-- Go map delete / `os.Remove`: drops the binding for `k`. -/
def assocErase (l : List (String × α)) (k : String) : List (String × α) :=
  l.filter (fun p => p.1 ≠ k)

theorem assocFind_assocSet (l : List (String × α)) (k : String) (v : α) :
    assocFind (assocSet l k v) k = some v := by
  simp [assocFind, assocSet, List.find?]

theorem assocFind_assocErase (l : List (String × α)) (k : String) :
    assocFind (assocErase l k) k = none := by
  unfold assocFind assocErase
  rw [List.find?_eq_none.mpr]
  · rfl
  · intro p hp
    simp only [List.mem_filter, decide_eq_true_eq] at hp
    simpa using hp.2

/-! ## HTTP data model -/

/-- `http.Header`: canonical-name keyed association list of value lists. -/
abbrev HeaderMap : Type := List (String × List String)

/-- `http.Header.Get`: the first value stored under `k`, `""` if absent or
empty (net/http returns the first value associated with the key). -/
def headerGet (h : HeaderMap) (k : String) : String :=
  match assocFind h k with
  | some vs => vs.headD ""
  | none => ""

/-- Model of `*http.Request` (nil-ness of the pointer handled by callers via
`Option`): method, URL (`Option` for a nil URL, rendered form of `URL.String()`),
header and body. -/
structure Request where
  method : String
  url : Option String
  header : HeaderMap
  body : Option (List Nat)
deriving DecidableEq

/-- Model of `*http.Response`. -/
structure Response where
  status : String
  statusCode : Int
  proto : String
  protoMajor : Int
  protoMinor : Int
  header : HeaderMap
  body : Option (List Nat)
  contentLength : Int
deriving DecidableEq

/-! ## Interceptor chain composer (request_handler.go)

`RequestHandler`/`RequestHandlerFunc` are polymorphic in the request type `ρ`
and combined response/error result type `σ`, since `ChainRequestHandlers`
never inspects either. -/

/-- `RequestHandlerFunc`: the "next" callable of an interceptor. -/
def RequestHandlerFunc (ρ σ : Type) : Type := ρ → σ

/-- `RequestHandler`: an interceptor taking a request and its next callable. -/
def RequestHandler (ρ σ : Type) : Type := ρ → RequestHandlerFunc ρ σ → σ

/-- `noOpRequestHandler`: passes the request straight to the next callable. -/
def noOpRequestHandler : RequestHandler ρ σ := fun req handlerFunc => handlerFunc req

/-- The `for i := n - 1; i > 0; i--` wrapping loop of `ChainRequestHandlers`:
`composeFrom handlers handlerFunc i` is the next-callable that runs
`handlers[i], handlers[i+1], …, handlers[n-1]` and finally `handlerFunc`. -/
def composeFrom (handlers : List (RequestHandler ρ σ))
    (handlerFunc : RequestHandlerFunc ρ σ) (i : Nat) : RequestHandlerFunc ρ σ :=
  if h : i < handlers.length then
    fun req => handlers.get ⟨i, h⟩ req (composeFrom handlers handlerFunc (i + 1))
  else
    handlerFunc
termination_by handlers.length - i

/-- `ChainRequestHandlers`: merges interceptors sequentially into one
interceptor; zero interceptors give the no-op pass-through, one interceptor is
returned as-is, otherwise `handlers[0]` runs with its next-callable wired
right-to-left through `handlers[1..n-1]` down to the terminal callable. -/
def ChainRequestHandlers (handlers : List (RequestHandler ρ σ)) : RequestHandler ρ σ :=
  if h0 : handlers.length = 0 then
    noOpRequestHandler
  else if h1 : handlers.length = 1 then
    handlers.get ⟨0, by omega⟩
  else
    fun req handlerFunc =>
      handlers.get ⟨0, by omega⟩ req (composeFrom handlers handlerFunc 1)

/-! Trace instrumentation for the ordering claim: the request (a `List Nat`)
accumulates the identifier of every interceptor that sees it on the way in;
the terminal callable appends its own tag and returns the trace. -/

/-- A transparent interceptor tagged `i`: records `i` on entry, then calls
its next callable. -/
def traceHandler (i : Nat) : RequestHandler (List Nat) (List Nat) :=
  fun req next => next (req ++ [i])

/-- A terminal call tagged `t`: records `t` and returns the whole trace. -/
def traceTerminal (t : Nat) : RequestHandlerFunc (List Nat) (List Nat) :=
  fun req => req ++ [t]

theorem composeFrom_trace (ids : List Nat) (t : Nat) :
    ∀ i req, composeFrom (ids.map traceHandler) (traceTerminal t) i req
      = req ++ ids.drop i ++ [t] := by
  have H : ∀ n i req, ids.length - i = n →
      composeFrom (ids.map traceHandler) (traceTerminal t) i req
        = req ++ ids.drop i ++ [t] := by
    intro n
    induction n using Nat.strong_induction_on with
    | _ n ih =>
      intro i req hn
      rw [composeFrom]
      by_cases h : i < (ids.map traceHandler).length
      · have hi : i < ids.length := by simpa using h
        simp only [dif_pos h]
        have hget : (ids.map traceHandler).get ⟨i, h⟩ = traceHandler (ids.get ⟨i, hi⟩) := by
          simp
        rw [hget]
        simp only [traceHandler]
        rw [ih (ids.length - (i + 1)) (by omega) (i + 1) (req ++ [ids.get ⟨i, hi⟩]) rfl]
        have hdrop : ids.drop i = ids.get ⟨i, hi⟩ :: ids.drop (i + 1) :=
          List.drop_eq_getElem_cons hi
        rw [hdrop]
        simp
      · have hi : ids.length ≤ i := by
          have := Nat.le_of_not_lt h
          simpa using this
        simp only [dif_neg h]
        rw [List.drop_eq_nil_of_le hi]
        simp [traceTerminal]
  intro i req
  exact H (ids.length - i) i req rfl

theorem chain_trace (ids : List Nat) (t : Nat) (req : List Nat) :
    ChainRequestHandlers (ids.map traceHandler) req (traceTerminal t)
      = req ++ ids ++ [t] := by
  unfold ChainRequestHandlers
  by_cases h0 : (ids.map traceHandler).length = 0
  · have : ids = [] := by simpa using h0
    subst this
    simp [noOpRequestHandler, traceTerminal]
  · by_cases h1 : (ids.map traceHandler).length = 1
    · have hlen : ids.length = 1 := by simpa using h1
      match ids, hlen with
      | [i], _ =>
        simp [traceHandler, traceTerminal]
    · simp only [dif_neg h0, dif_neg h1]
      have hi : 0 < ids.length := by
        have : ids.length ≠ 0 := by simpa using h0
        omega
      have hget : (ids.map traceHandler).get ⟨0, by simpa using hi⟩
          = traceHandler (ids.get ⟨0, hi⟩) := by simp
      rw [hget]
      simp only [traceHandler]
      rw [composeFrom_trace]
      have : ids.drop 0 = ids := rfl
      have hd : ids.get ⟨0, hi⟩ :: ids.drop 1 = ids := by
        have := List.drop_eq_getElem_cons (l := ids) hi
        simpa using this.symm
      calc req ++ [ids.get ⟨0, hi⟩] ++ ids.drop 1 ++ [t]
          = req ++ (ids.get ⟨0, hi⟩ :: ids.drop 1) ++ [t] := by simp
        _ = req ++ ids ++ [t] := by rw [hd]

/-- C1: the handler built by `ChainRequestHandlers` runs `h1` first with its
next-callable wired through `h2, …, hn` to the terminal call `T`; when every
interceptor calls its next-callable the entry order is exactly
`h1, h2, …, hn, T` (conjunct 1), each interceptor is invoked at most once per
traversal (conjunct 2: the trace of `n` distinct tagged interceptors has no
duplicates), `n = 0` behaves identically to calling `T` directly (conjunct 3)
and `n = 1` is `h1` itself (conjunct 4). -/
theorem chainRequestHandlers_order :
    (∀ (ids : List Nat) (t : Nat) (req : List Nat),
      ChainRequestHandlers (ids.map traceHandler) req (traceTerminal t)
        = req ++ ids ++ [t])
    ∧ (∀ n : Nat,
      (ChainRequestHandlers ((List.range n).map traceHandler) [] (traceTerminal n)).Nodup)
    ∧ (∀ (req : List Nat) (handlerFunc : RequestHandlerFunc (List Nat) (List Nat)),
      ChainRequestHandlers ([] : List (RequestHandler (List Nat) (List Nat))) req handlerFunc
        = handlerFunc req)
    ∧ (∀ h : RequestHandler (List Nat) (List Nat),
      ChainRequestHandlers [h] = h) := by
  refine ⟨chain_trace, ?_, ?_, ?_⟩
  · intro n
    have := chain_trace (List.range n) n []
    rw [this]
    simp only [List.nil_append]
    have : (List.range n ++ [n]).Nodup := by
      rw [List.nodup_append]
      refine ⟨List.nodup_range n, List.nodup_singleton n, ?_⟩
      intro a ha hb
      simp only [List.mem_range] at ha
      simp only [List.mem_singleton] at hb
      omega
    exact this
  · intro req handlerFunc
    simp [ChainRequestHandlers, noOpRequestHandler]
  · intro h
    simp [ChainRequestHandlers]

/-! ## Retry / backoff controller (retry.go)

The backoff policy (github.com/cenkalti/backoff/v4, an external collaborator)
is modelled by the stream of durations its successive `NextBackOff` calls
yield after `Reset` — `newFromBackOff` clones and resets the configured
policy, so the stream starts fresh on every top-level call. `backoff.Stop`
is the sentinel duration -1. -/

/-- A reset backoff policy: `next n` is the duration produced by the
(n+1)-st `NextBackOff` call. -/
structure BackOffM where
  next : Nat → Int

/-- `backoff.Stop` sentinel. -/
def backoffStop : Int := -1

/-- `backoff.WithMaxRetries b k`: the first `k` `NextBackOff` calls delegate
to `b`, every later call returns `backoff.Stop`. -/
def withMaxRetries (b : BackOffM) (maxTries : Nat) : BackOffM :=
  ⟨fun n => if n < maxTries then b.next n else backoffStop⟩

/-- `RetryOption`: retry predicate, maximum retries and backoff policy. -/
structure RetryOptionM where
  shouldRetryFunc : Request → Option Response → Option GoError → Bool
  maxRetry : Nat
  retryBackOff : BackOffM

/-- Result of one downstream invocation: `(resp, err)`. -/
structure AttemptResult where
  resp : Option Response
  err : Option GoError
deriving DecidableEq

/-- The overall outcome of the retry interceptor: how many times the
downstream handler was invoked, and the final `(resp, err)`. -/
structure RetryOutcome where
  attempts : Nat
  resp : Option Response
  err : Option GoError
deriving DecidableEq

/-- The `defer` in `RetryHandler`'s `fn`: if the attempt has both an error
and a response, the response body is closed and the response discarded. -/
def retryDeferNil (a : AttemptResult) : AttemptResult :=
  if a.err.isSome ∧ a.resp.isSome then ⟨none, a.err⟩ else a

/-- One iteration of `RetryHandler`'s `fn` closure: invoke downstream
(`downstream i` is the result of the (i+1)-st invocation), ask the retry
predicate, ask the wrapped backoff for the next duration (`backoff.Stop`
halts), sleep interruptibly (`cancelledAt i` tells whether the request's
context fires during that sleep, in which case the context error is wrapped
around the prior failure via `errors.Wrapf(err2, "%v", err)`). Returns
whether the loop continues, and the post-defer `(resp, err)`. -/
def retryFn (option : RetryOptionM) (req : Request)
    (downstream : Nat → AttemptResult) (cancelledAt : Nat → Bool)
    (b : BackOffM) (i : Nat) : Bool × AttemptResult :=
  let r := downstream i
  let should := option.shouldRetryFunc req r.resp r.err
  if !should then
    (false, retryDeferNil r)
  else
    let d := b.next i
    if d = backoffStop then
      (false, retryDeferNil r)
    else if cancelledAt i then
      (false, retryDeferNil ⟨r.resp, some (GoError.wrap GoError.canceled (goErrorTextOpt r.err))⟩)
    else
      (true, retryDeferNil r)

/-- The `for fn() {}` loop; `i` counts completed attempts, `fuel` bounds the
iteration count of the embedding (the claims supply enough fuel). -/
def retryLoop (option : RetryOptionM) (req : Request)
    (downstream : Nat → AttemptResult) (cancelledAt : Nat → Bool)
    (b : BackOffM) : Nat → Nat → RetryOutcome
  | i, 0 => ⟨i, none, none⟩
  | i, fuel + 1 =>
    let step := retryFn option req downstream cancelledAt b i
    if step.1 then
      retryLoop option req downstream cancelledAt b (i + 1) fuel
    else
      ⟨i + 1, step.2.resp, step.2.err⟩

/-- `RetryHandler`: with `MaxRetry = 0` the downstream handler is called
straight through; otherwise the configured backoff is cloned, reset, wrapped
with `WithMaxRetries`, and the retry loop runs. -/
def RetryHandler (option : RetryOptionM) (req : Request)
    (downstream : Nat → AttemptResult) (cancelledAt : Nat → Bool)
    (fuel : Nat) : RetryOutcome :=
  if option.maxRetry = 0 then
    ⟨1, (downstream 0).resp, (downstream 0).err⟩
  else
    retryLoop option req downstream cancelledAt
      (withMaxRetries option.retryBackOff option.maxRetry) 0 fuel

theorem retryLoop_attempts (option : RetryOptionM) (req : Request)
    (downstream : Nat → AttemptResult) (cancelledAt : Nat → Bool)
    (hshould : ∀ resp err, option.shouldRetryFunc req resp err = true)
    (hnostop : ∀ n, option.retryBackOff.next n ≠ backoffStop)
    (hnocancel : ∀ i, cancelledAt i = false) :
    ∀ fuel i, i ≤ option.maxRetry → option.maxRetry + 1 - i ≤ fuel →
      (retryLoop option req downstream cancelledAt
        (withMaxRetries option.retryBackOff option.maxRetry) i fuel).attempts
        = option.maxRetry + 1 := by
  intro fuel
  induction fuel with
  | zero => intro i hi hf; omega
  | succ fuel ih =>
    intro i hi hf
    rw [retryLoop]
    by_cases hik : i < option.maxRetry
    · have hstep : (retryFn option req downstream cancelledAt
          (withMaxRetries option.retryBackOff option.maxRetry) i).1 = true := by
        simp only [retryFn, hshould, withMaxRetries, if_pos hik]
        simp [hnostop i, hnocancel i]
      rw [hstep]
      simp only [if_true]
      exact ih (i + 1) (by omega) (by omega)
    · have hieq : i = option.maxRetry := by omega
      have hstep : (retryFn option req downstream cancelledAt
          (withMaxRetries option.retryBackOff option.maxRetry) i).1 = false := by
        simp only [retryFn, hshould, withMaxRetries]
        simp [hieq, backoffStop]
      rw [hstep]
      simp [hieq]

/-- C2: with `MaxRetry = k`, an always-true retry predicate, a backoff policy
that never yields `backoff.Stop` and no cancellation, `RetryHandler` invokes
the downstream handler exactly `k + 1` times (conjunct 1); with
`MaxRetry = 0` the downstream handler is invoked exactly once and its result
is returned untouched — no retry logic engaged (conjunct 2, which needs none
of the other hypotheses). -/
theorem retryHandler_attempt_count (option : RetryOptionM) (req : Request)
    (downstream : Nat → AttemptResult) (cancelledAt : Nat → Bool) (fuel : Nat)
    (hshould : ∀ resp err, option.shouldRetryFunc req resp err = true)
    (hnostop : ∀ n, option.retryBackOff.next n ≠ backoffStop)
    (hnocancel : ∀ i, cancelledAt i = false)
    (hfuel : option.maxRetry + 1 ≤ fuel) :
    (RetryHandler option req downstream cancelledAt fuel).attempts
      = option.maxRetry + 1
    ∧ (option.maxRetry = 0 →
      ∀ (downstream2 : Nat → AttemptResult) (cancelledAt2 : Nat → Bool) (fuel2 : Nat),
        RetryHandler option req downstream2 cancelledAt2 fuel2
          = ⟨1, (downstream2 0).resp, (downstream2 0).err⟩) := by
  constructor
  · unfold RetryHandler
    by_cases h0 : option.maxRetry = 0
    · simp [h0]
    · rw [if_neg h0]
      exact retryLoop_attempts option req downstream cancelledAt
        hshould hnostop hnocancel fuel 0 (by omega) (by omega)
  · intro h0 downstream2 cancelledAt2 fuel2
    simp [RetryHandler, h0]

/-- Witness for C2 at concrete inputs: two interceptor configurations, with
`MaxRetry = 2` (three attempts) and `MaxRetry = 0` (single pass-through). -/
theorem retryHandler_attempt_count_witness :
    (RetryHandler ⟨fun _ _ _ => true, 2, ⟨fun _ => 5⟩⟩
        ⟨"GET", some "http://example.com", [], none⟩
        (fun _ => ⟨none, some (GoError.msg "boom")⟩) (fun _ => false) 3).attempts = 3
    ∧ RetryHandler ⟨fun _ _ _ => true, 0, ⟨fun _ => 5⟩⟩
        ⟨"GET", some "http://example.com", [], none⟩
        (fun _ => ⟨none, some (GoError.msg "boom")⟩) (fun _ => false) 7
        = ⟨1, none, some (GoError.msg "boom")⟩ := by
  have h := retryHandler_attempt_count ⟨fun _ _ _ => true, 2, ⟨fun _ => 5⟩⟩
    ⟨"GET", some "http://example.com", [], none⟩
    (fun _ => ⟨none, some (GoError.msg "boom")⟩) (fun _ => false) 3
    (fun _ _ => rfl) (fun n => by simp [backoffStop]) (fun _ => rfl) (by decide)
  have h2 := retryHandler_attempt_count ⟨fun _ _ _ => true, 0, ⟨fun _ => 5⟩⟩
    ⟨"GET", some "http://example.com", [], none⟩
    (fun _ => ⟨none, some (GoError.msg "boom")⟩) (fun _ => false) 7
    (fun _ _ => rfl) (fun n => by simp [backoffStop]) (fun _ => rfl) (by decide)
  exact ⟨h.1, h2.2 rfl _ _ 7⟩

theorem errorsIs_wrap_canceled (m : String) :
    errorsIs (GoError.wrap GoError.canceled m) GoError.canceled = true := by
  rw [errorsIs]
  simp [errorsIs]

theorem retryLoop_cancel (option : RetryOptionM) (req : Request)
    (downstream : Nat → AttemptResult) (cancelledAt : Nat → Bool) (j : Nat)
    (hshould : ∀ resp err, option.shouldRetryFunc req resp err = true)
    (hnostop : ∀ n, option.retryBackOff.next n ≠ backoffStop)
    (hbefore : ∀ i, i < j → cancelledAt i = false)
    (hj : cancelledAt j = true)
    (hjk : j < option.maxRetry) :
    ∀ fuel i, i ≤ j → j + 1 - i ≤ fuel →
      retryLoop option req downstream cancelledAt
        (withMaxRetries option.retryBackOff option.maxRetry) i fuel
        = ⟨j + 1, none,
            some (GoError.wrap GoError.canceled (goErrorTextOpt (downstream j).err))⟩ := by
  intro fuel
  induction fuel with
  | zero => intro i hi hf; omega
  | succ fuel ih =>
    intro i hi hf
    rw [retryLoop]
    by_cases hij : i < j
    · have hstep : (retryFn option req downstream cancelledAt
          (withMaxRetries option.retryBackOff option.maxRetry) i).1 = true := by
        simp only [retryFn, hshould, withMaxRetries]
        have hik : i < option.maxRetry := by omega
        simp [hik, hnostop i, hbefore i hij]
      rw [hstep]
      simp only [if_true]
      exact ih (i + 1) (by omega) (by omega)
    · have hieq : i = j := by omega
      subst hieq
      have hstep : retryFn option req downstream cancelledAt
          (withMaxRetries option.retryBackOff option.maxRetry) i
          = (false, retryDeferNil ⟨(downstream i).resp,
              some (GoError.wrap GoError.canceled (goErrorTextOpt (downstream i).err))⟩) := by
        simp only [retryFn, hshould, withMaxRetries]
        simp [hjk, hnostop i, hj]
      rw [hstep]
      simp only [Bool.false_eq_true, if_false]
      cases hresp : (downstream i).resp with
      | none => simp [retryDeferNil, hresp]
      | some r => simp [retryDeferNil, hresp]

/-- C3: if the request's context fires during the sleep that follows attempt
`j + 1` (and not earlier), the retry controller makes no further downstream
attempts — exactly `j + 1` invocations happen — and returns an error that
wraps `context.Canceled` around the text of the prior attempt's failure;
`errors.Is` classifies that error as cancellation. -/
theorem retryHandler_cancellation (option : RetryOptionM) (req : Request)
    (downstream : Nat → AttemptResult) (cancelledAt : Nat → Bool) (fuel j : Nat)
    (hshould : ∀ resp err, option.shouldRetryFunc req resp err = true)
    (hnostop : ∀ n, option.retryBackOff.next n ≠ backoffStop)
    (hbefore : ∀ i, i < j → cancelledAt i = false)
    (hj : cancelledAt j = true)
    (hjk : j < option.maxRetry)
    (hfuel : j + 1 ≤ fuel) :
    RetryHandler option req downstream cancelledAt fuel
      = ⟨j + 1, none,
          some (GoError.wrap GoError.canceled (goErrorTextOpt (downstream j).err))⟩
    ∧ errorsIs (GoError.wrap GoError.canceled (goErrorTextOpt (downstream j).err))
        GoError.canceled = true := by
  constructor
  · unfold RetryHandler
    have h0 : ¬ option.maxRetry = 0 := by omega
    rw [if_neg h0]
    exact retryLoop_cancel option req downstream cancelledAt j
      hshould hnostop hbefore hj hjk fuel 0 (by omega) (by omega)
  · exact errorsIs_wrap_canceled _

/-- Witness for C3: `MaxRetry = 2`, the context fires during the first sleep;
one attempt happens and the result is a cancellation-wrapped error. -/
theorem retryHandler_cancellation_witness :
    RetryHandler ⟨fun _ _ _ => true, 2, ⟨fun _ => 5⟩⟩
        ⟨"GET", some "http://example.com", [], none⟩
        (fun _ => ⟨none, some (GoError.msg "boom")⟩) (fun i => decide (i = 0)) 4
      = ⟨1, none, some (GoError.wrap GoError.canceled "boom")⟩
    ∧ errorsIs (GoError.wrap GoError.canceled "boom") GoError.canceled = true := by
  have h := retryHandler_cancellation ⟨fun _ _ _ => true, 2, ⟨fun _ => 5⟩⟩
    ⟨"GET", some "http://example.com", [], none⟩
    (fun _ => ⟨none, some (GoError.msg "boom")⟩) (fun i => decide (i = 0)) 4 0
    (fun _ _ => rfl) (fun n => by simp [backoffStop]) (fun i hi => by omega)
    (by decide) (by decide) (by decide)
  exact h

/-! ## Cache interceptor (cache.go)

The `Cacher`, encoder/decoder and pluggable functions are fields of the
option, as in the source. The handler result additionally records the keys
read from the cacher, the `Set` calls issued, and the number of downstream
invocations, so the short-circuit behaviour is observable. `CacheHandler` is
polymorphic in the stored-bytes type `β` (opaque to the handler). -/

/-- `RequestEntry`: the request context stored by the cache. -/
structure RequestEntryM where
  request : Option Request
  response : Option Response
  error : Option GoError
deriving DecidableEq

/-- `CacheOption`: the pluggable predicates, hash, TTL, storage and codec. -/
structure CacheOptionM (β : Type) where
  shouldCacheFunc : Request → Option Response → Option GoError → Bool
  requestHashFunc : Request → Option Response → Option GoError → Option String
  cacheTTLFunc : Request → Option Response → Option GoError → Int
  cacherGet : String → Except GoError β
  encode : RequestEntryM → Except GoError β
  decode : β → Except GoError RequestEntryM

/-- Observable outcome of one `CacheHandler` invocation. -/
structure CacheHandlerResult (β : Type) where
  resp : Option Response
  err : Option GoError
  downstreamCalls : Nat
  gets : List String
  sets : List (String × β × Int)
deriving DecidableEq

/-- The fall-through tail of `CacheHandler` (everything after the lookup
fails to short-circuit): call downstream once, consult `ShouldCacheFunc`,
recompute the fingerprint from the completed triple, encode and store.
An encode failure is returned as a wrapped "Serialization request" error with
a nil response; the `Set` error is discarded. -/
def cacheWritePath (option : CacheOptionM β) (req : Request)
    (downstream : Request → Option Response × Option GoError)
    (gets : List String) : CacheHandlerResult β :=
  let r := downstream req
  let base : CacheHandlerResult β :=
    ⟨r.1, r.2, 1, gets, []⟩
  if ¬ option.shouldCacheFunc req r.1 r.2 then
    base
  else
    match option.requestHashFunc req r.1 r.2 with
    | none => base
    | some hash =>
      match option.encode ⟨some req, r.1, r.2⟩ with
      | .error e => ⟨none, some (GoError.wrap e "Serialization request"), 1, gets, []⟩
      | .ok cacheValue =>
        ⟨r.1, r.2, 1, gets, [(hash, cacheValue, option.cacheTTLFunc req r.1 r.2)]⟩

/-- `CacheHandler`: fingerprint the bare request; with a fingerprint, look up
the cacher and, when both the read and the decode succeed, return the decoded
entry's recorded response and error without touching downstream; otherwise
fall through to `cacheWritePath`. -/
def CacheHandler (option : CacheOptionM β) (req : Request)
    (downstream : Request → Option Response × Option GoError) :
    CacheHandlerResult β :=
  match option.requestHashFunc req none none with
  | none => cacheWritePath option req downstream []
  | some hash =>
    match option.cacherGet hash with
    | .error _ => cacheWritePath option req downstream [hash]
    | .ok cacheValue =>
      match option.decode cacheValue with
      | .error _ => cacheWritePath option req downstream [hash]
      | .ok re => ⟨re.response, re.error, 0, [hash], []⟩

theorem cacheWritePath_downstreamCalls (option : CacheOptionM β) (req : Request)
    (downstream : Request → Option Response × Option GoError) (gets : List String) :
    (cacheWritePath option req downstream gets).downstreamCalls = 1 := by
  unfold cacheWritePath
  by_cases h : option.shouldCacheFunc req (downstream req).1 (downstream req).2
  · simp only [h]
    cases option.requestHashFunc req (downstream req).1 (downstream req).2 with
    | none => simp
    | some hash =>
      cases option.encode ⟨some req, (downstream req).1, (downstream req).2⟩ with
      | error e => simp
      | ok v => simp
  · simp [h]

/-- C4: for a request whose fingerprint is non-nil, a successful cacher read
whose bytes decode returns the decoded entry's recorded response and error
with zero downstream invocations (conjunct 1); a cacher read error (conjunct
2) or a decode failure (conjunct 3) falls through to the write path — the
downstream handler runs exactly once and the result is that of the
fall-through path, which does not depend on (and hence never surfaces) the
storage or decode error. -/
theorem cacheHandler_hit_and_degrade (option : CacheOptionM β) (req : Request)
    (downstream : Request → Option Response × Option GoError) (h : String)
    (hh : option.requestHashFunc req none none = some h) :
    (∀ bv re, option.cacherGet h = .ok bv → option.decode bv = .ok re →
      CacheHandler option req downstream = ⟨re.response, re.error, 0, [h], []⟩)
    ∧ (∀ e, option.cacherGet h = .error e →
      CacheHandler option req downstream = cacheWritePath option req downstream [h]
      ∧ (CacheHandler option req downstream).downstreamCalls = 1)
    ∧ (∀ bv e, option.cacherGet h = .ok bv → option.decode bv = .error e →
      CacheHandler option req downstream = cacheWritePath option req downstream [h]
      ∧ (CacheHandler option req downstream).downstreamCalls = 1) := by
  refine ⟨?_, ?_, ?_⟩
  · intro bv re hget hdec
    unfold CacheHandler
    rw [hh]
    simp only [hget, hdec]
  · intro e hget
    unfold CacheHandler
    rw [hh]
    simp only [hget]
    exact ⟨trivial, cacheWritePath_downstreamCalls option req downstream [h]⟩
  · intro bv e hget hdec
    unfold CacheHandler
    rw [hh]
    simp only [hget, hdec]
    exact ⟨trivial, cacheWritePath_downstreamCalls option req downstream [h]⟩

/-- Witness for C4 at concrete inputs: a hit configuration (stored entry is
returned, no downstream call) and a not-found configuration (downstream runs
once). -/
theorem cacheHandler_hit_and_degrade_witness :
    CacheHandler (β := Nat)
      ⟨fun _ _ _ => false, fun _ _ _ => some "k", fun _ _ _ => 0,
        fun _ => .ok 7, fun _ => .error (GoError.msg "n/a"),
        fun _ => .ok ⟨none, some (Response.mk "200 OK" 200 "HTTP/1.1" 1 1 [] (some [104]) 1), none⟩⟩
      ⟨"GET", some "http://example.com", [], none⟩ (fun _ => (none, none))
      = ⟨some (Response.mk "200 OK" 200 "HTTP/1.1" 1 1 [] (some [104]) 1), none, 0, ["k"], []⟩
    ∧ (CacheHandler (β := Nat)
      ⟨fun _ _ _ => false, fun _ _ _ => some "k", fun _ _ _ => 0,
        fun _ => .error (GoError.msg "cache key not found"),
        fun _ => .error (GoError.msg "n/a"), fun _ => .error (GoError.msg "n/a")⟩
      ⟨"GET", some "http://example.com", [], none⟩
      (fun _ => (none, none))).downstreamCalls = 1 := by
  constructor
  · exact (cacheHandler_hit_and_degrade _ _ _ "k" rfl).1 7
      ⟨none, some (Response.mk "200 OK" 200 "HTTP/1.1" 1 1 [] (some [104]) 1), none⟩ rfl rfl
  · exact ((cacheHandler_hit_and_degrade _ _ _ "k" rfl).2.1
      (GoError.msg "cache key not found") rfl).2

/-- `DefaultRequestHashFunc`: only a (non-nil) GET request with a non-nil URL
is fingerprinted; the key is the base64-URL encoding of the SHA-1 digest of
the absolute URL string. The digest and encoding are the external
`crypto/sha1` and `encoding/base64` collaborators, passed as parameters. -/
def DefaultRequestHashFunc (sha1 : String → List Nat)
    (base64URLEncode : List Nat → String)
    (req : Request) (_resp : Option Response) (_err : Option GoError) :
    Option String :=
  if req.url.isSome ∧ req.method = "GET" then
    match req.url with
    | some u => some (base64URLEncode (sha1 u))
    | none => none
  else
    none

theorem cacheWritePath_gets (option : CacheOptionM β) (req : Request)
    (downstream : Request → Option Response × Option GoError) (gets : List String) :
    (cacheWritePath option req downstream gets).gets = gets := by
  unfold cacheWritePath
  by_cases h : option.shouldCacheFunc req (downstream req).1 (downstream req).2
  · simp only [h]
    cases option.requestHashFunc req (downstream req).1 (downstream req).2 with
    | none => simp
    | some hash =>
      cases option.encode ⟨some req, (downstream req).1, (downstream req).2⟩ with
      | error e => simp
      | ok v => simp
  · simp [h]

theorem cacheWritePath_sets_of_hash_none (option : CacheOptionM β) (req : Request)
    (downstream : Request → Option Response × Option GoError) (gets : List String)
    (hnone : option.requestHashFunc req (downstream req).1 (downstream req).2 = none) :
    (cacheWritePath option req downstream gets).sets = [] := by
  unfold cacheWritePath
  by_cases h : option.shouldCacheFunc req (downstream req).1 (downstream req).2
  · simp only [h]
    rw [hnone]
    simp
  · simp [h]

/-- C5: under `DefaultRequestHashFunc`, a non-GET request yields no
fingerprint (conjunct 1); a GET request with a non-nil URL yields the
base64-URL-encoded SHA-1 digest of the absolute URL string (conjunct 2); a
nil URL yields no fingerprint (conjunct 3); consequently a `CacheHandler`
configured with the default hash never reads from or writes to the cacher
for a non-GET request, whatever its response or status code (conjunct 4). -/
theorem defaultRequestHashFunc_get_only (sha1 : String → List Nat)
    (base64URLEncode : List Nat → String)
    (req : Request) (resp : Option Response) (err : Option GoError) :
    (req.method ≠ "GET" →
      DefaultRequestHashFunc sha1 base64URLEncode req resp err = none)
    ∧ (∀ u, req.url = some u → req.method = "GET" →
      DefaultRequestHashFunc sha1 base64URLEncode req resp err
        = some (base64URLEncode (sha1 u)))
    ∧ (req.url = none →
      DefaultRequestHashFunc sha1 base64URLEncode req resp err = none)
    ∧ (∀ (β : Type) (option : CacheOptionM β)
        (downstream : Request → Option Response × Option GoError),
      option.requestHashFunc = DefaultRequestHashFunc sha1 base64URLEncode →
      req.method ≠ "GET" →
      (CacheHandler option req downstream).gets = []
      ∧ (CacheHandler option req downstream).sets = []) := by
  refine ⟨?_, ?_, ?_, ?_⟩
  · intro hm
    simp [DefaultRequestHashFunc, hm]
  · intro u hu hm
    simp [DefaultRequestHashFunc, hu, hm]
  · intro hu
    simp [DefaultRequestHashFunc, hu]
  · intro β option downstream hopt hm
    have hnone : ∀ (r : Option Response) (e : Option GoError),
        option.requestHashFunc req r e = none := by
      intro r e
      rw [hopt]
      simp [DefaultRequestHashFunc, hm]
    unfold CacheHandler
    rw [hnone none none]
    exact ⟨cacheWritePath_gets option req downstream [],
      cacheWritePath_sets_of_hash_none option req downstream []
        (hnone (downstream req).1 (downstream req).2)⟩

/-- Witness for C5 at a concrete POST request and concrete digest/encoding
functions: no fingerprint, no cacher reads, no cacher writes. -/
theorem defaultRequestHashFunc_get_only_witness :
    DefaultRequestHashFunc (fun _ => [0]) (fun _ => "d")
      ⟨"POST", some "http://example.com", [], none⟩ none none = none
    ∧ DefaultRequestHashFunc (fun _ => [0]) (fun _ => "d")
      ⟨"GET", some "http://example.com", [], none⟩ none none = some "d"
    ∧ (CacheHandler (β := Nat)
      ⟨fun _ _ _ => true, DefaultRequestHashFunc (fun _ => [0]) (fun _ => "d"),
        fun _ _ _ => 0, fun _ => .error (GoError.msg "cache key not found"),
        fun _ => .error (GoError.msg "n/a"), fun _ => .error (GoError.msg "n/a")⟩
      ⟨"POST", some "http://example.com", [], none⟩
      (fun _ => (none, none))).gets = []
    ∧ (CacheHandler (β := Nat)
      ⟨fun _ _ _ => true, DefaultRequestHashFunc (fun _ => [0]) (fun _ => "d"),
        fun _ _ _ => 0, fun _ => .error (GoError.msg "cache key not found"),
        fun _ => .error (GoError.msg "n/a"), fun _ => .error (GoError.msg "n/a")⟩
      ⟨"POST", some "http://example.com", [], none⟩
      (fun _ => (none, none))).sets = [] := by
  have hp := defaultRequestHashFunc_get_only (fun _ => [0]) (fun _ => "d")
    ⟨"POST", some "http://example.com", [], none⟩ none none
  have hg := defaultRequestHashFunc_get_only (fun _ => [0]) (fun _ => "d")
    ⟨"GET", some "http://example.com", [], none⟩ none none
  have hcache := hp.2.2.2 Nat
    ⟨fun _ _ _ => true, DefaultRequestHashFunc (fun _ => [0]) (fun _ => "d"),
      fun _ _ _ => 0, fun _ => .error (GoError.msg "cache key not found"),
      fun _ => .error (GoError.msg "n/a"), fun _ => .error (GoError.msg "n/a")⟩
    (fun _ => (none, none)) rfl (by decide)
  exact ⟨hp.1 (by decide), hg.2.1 "http://example.com" rfl rfl, hcache.1, hcache.2⟩

/-! ## Transaction codec (cache.go: requestEntryEncoderDecoder)

`msgpack` (an external collaborator) is injective on the intermediate
`HTTPRequestResponse` structure and always round-trips it, so the serialized
byte slice is modelled by the structure itself; `Encode` produces it and
`Decode` consumes it. `http.NewRequest` (net/http, external) is modelled by
its documented behaviour on the inputs the codec feeds it: an empty method
defaults to `"GET"`, the URL string is parsed and re-rendered unchanged, the
header starts empty and the body reader carries the given bytes. -/

/-- The serialized intermediate form of a transaction. A Go `nil` byte slice
and an empty one are identified (`[]`); `Error` is `Option` for the nil
slice. -/
structure HTTPRequestResponse where
  method : String
  url : String
  requestHeader : List (String × String)
  requestBody : List Nat
  status : String
  statusCode : Int
  proto : String
  protoMajor : Int
  protoMinor : Int
  responseHeader : List (String × String)
  responseBody : List Nat
  error : Option String
deriving DecidableEq

/-- `httpHeaderToMap`: flattens a header into a one-value-per-name mapping;
each name is paired with `Header.Get(name)`, the first value under it. -/
def httpHeaderToMap (header : HeaderMap) : List (String × String) :=
  header.map (fun p => (p.1, headerGet header p.1))

/-- `mapToHTTPHeader`: rebuilds a header by `Set`-ing each pair (the source
maps have one binding per name). -/
def mapToHTTPHeader (m : List (String × String)) : HeaderMap :=
  m.map (fun p => (p.1, [p.2]))

namespace requestEntryEncoderDecoder

/-- `Encode`: fails on a nil request or nil URL; otherwise captures method,
absolute URL string, flattened headers, body bytes, the response section when
a response exists (zero values otherwise) and the error text when an error
exists. -/
def Encode (entry : RequestEntryM) : Except GoError HTTPRequestResponse :=
  match entry.request with
  | none => .error (GoError.msg "Request not found in RequestEntry")
  | some r =>
    match r.url with
    | none => .error (GoError.msg "URL not found in RequestEntry")
    | some u =>
      let base : HTTPRequestResponse :=
        { method := r.method, url := u,
          requestHeader := httpHeaderToMap r.header,
          requestBody := r.body.getD [],
          status := "", statusCode := 0, proto := "", protoMajor := 0,
          protoMinor := 0, responseHeader := [], responseBody := [],
          error := none }
      let withResp : HTTPRequestResponse :=
        match entry.response with
        | none => base
        | some w =>
          { base with
            status := w.status, statusCode := w.statusCode,
            proto := w.proto, protoMajor := w.protoMajor,
            protoMinor := w.protoMinor,
            responseHeader := httpHeaderToMap w.header,
            responseBody := w.body.getD [] }
      match entry.error with
      | none => .ok withResp
      | some er => .ok { withResp with error := some (goErrorText er) }

/-- `Decode`: rebuilds the request via `http.NewRequest` (empty headers, body
from the recorded bytes, empty method defaulted to GET), rebuilds a response
only when a positive status code was recorded (note the source populates the
rebuilt `Status` field from the recorded `Proto`), and rebuilds the error
from its recorded text. -/
def Decode (e : HTTPRequestResponse) : Except GoError RequestEntryM :=
  let req : Request :=
    { method := if e.method = "" then "GET" else e.method,
      url := some e.url, header := [], body := some e.requestBody }
  let resp : Option Response :=
    if 0 < e.statusCode then
      some {
        status := e.proto, statusCode := e.statusCode, proto := e.proto,
        protoMajor := e.protoMajor, protoMinor := e.protoMinor,
        header := mapToHTTPHeader e.responseHeader,
        body := some e.responseBody,
        contentLength := (e.responseBody.length : Int) }
    else
      none
  .ok { request := some req, response := resp, error := e.error.map GoError.msg }

end requestEntryEncoderDecoder

theorem assocFind_of_nodupKeys (h : List (String × α)) (p : String × α)
    (hnodup : (h.map Prod.fst).Nodup) (hp : p ∈ h) :
    assocFind h p.1 = some p.2 := by
  induction h with
  | nil => cases hp
  | cons q t ih =>
    rcases List.mem_cons.mp hp with hq | ht
    · subst hq
      simp [assocFind, List.find?]
    · simp only [List.map_cons, List.nodup_cons] at hnodup
      have hkey : q.1 ≠ p.1 := by
        intro hcontra
        exact hnodup.1 (hcontra ▸ List.mem_map_of_mem Prod.fst ht)
      have := ih hnodup.2 ht
      simpa [assocFind, List.find?, hkey] using this

theorem httpHeaderToMap_eq_map_head (h : HeaderMap)
    (hnodup : ((h : List (String × List String)).map Prod.fst).Nodup) :
    httpHeaderToMap h = (h : List (String × List String)).map
      (fun p => (p.1, p.2.headD "")) := by
  unfold httpHeaderToMap
  apply List.map_congr_left
  intro p hp
  have := assocFind_of_nodupKeys h p hnodup hp
  simp [headerGet, this]

theorem mapToHTTPHeader_httpHeaderToMap (h : HeaderMap)
    (hnodup : ((h : List (String × List String)).map Prod.fst).Nodup)
    (hsingle : ∀ p ∈ (h : List (String × List String)), ∃ v, p.2 = [v]) :
    mapToHTTPHeader (httpHeaderToMap h) = h := by
  rw [httpHeaderToMap_eq_map_head h hnodup]
  unfold mapToHTTPHeader
  rw [List.map_map]
  have : ∀ p ∈ (h : List (String × List String)),
      ((fun p => (p.1, [p.2])) ∘ fun p => (p.1, p.2.headD "")) p = id p := by
    intro p hp
    rcases hsingle p hp with ⟨v, hv⟩
    simp only [Function.comp, hv, List.headD_cons, id]
    exact (Prod.ext rfl hv.symm)
  rw [List.map_congr_left this, List.map_id]

/-- C7 counterexample: a request header carrying the two values
`["a", "b"]` under name `K` is flattened by `httpHeaderToMap` — and hence by
`Encode` — to its FIRST value `"a"`, not its last-written value `"b"`. -/
theorem encode_header_last_value_cx :
    httpHeaderToMap [("K", ["a", "b"])] = [("K", "a")]
    ∧ requestEntryEncoderDecoder.Encode
        ⟨some ⟨"GET", some "http://example.com/x", [("K", ["a", "b"])], none⟩,
          none, none⟩
      = .ok ⟨"GET", "http://example.com/x", [("K", "a")], [], "", 0, "", 0, 0,
          [], [], none⟩
    ∧ ("a" : String) ≠ "b" := by
  refine ⟨rfl, rfl, by decide⟩

/-- C7 amended: when `Encode` flattens request or response headers into the
one-value-per-name serialized mapping, a name that carried multiple values is
recorded with its FIRST (earliest-added) value — `Header.Get` returns the
first value — not the last-written one: over distinct names the flattening is
exactly `name ↦ first value` (conjunct 1), and `Encode` records precisely
that flattening of the request header (conjunct 2). -/
theorem encode_header_first_value (h : HeaderMap)
    (hnodup : ((h : List (String × List String)).map Prod.fst).Nodup) :
    httpHeaderToMap h = (h : List (String × List String)).map
      (fun p => (p.1, p.2.headD ""))
    ∧ (∀ (t : RequestEntryM) (r : Request) (u : String),
      t.request = some r → r.url = some u →
      ∃ e, requestEntryEncoderDecoder.Encode t = .ok e
        ∧ e.requestHeader = httpHeaderToMap r.header) := by
  constructor
  · exact httpHeaderToMap_eq_map_head h hnodup
  · intro t r u hreq hurl
    unfold requestEntryEncoderDecoder.Encode
    simp only [hreq, hurl]
    cases t.response with
    | none =>
      cases t.error with
      | none => exact ⟨_, rfl, rfl⟩
      | some er => exact ⟨_, rfl, rfl⟩
    | some w =>
      cases t.error with
      | none => exact ⟨_, rfl, rfl⟩
      | some er => exact ⟨_, rfl, rfl⟩

/-- Witness for C7's amended statement at a concrete multi-valued header. -/
theorem encode_header_first_value_witness :
    httpHeaderToMap [("K", ["a", "b"]), ("L", ["c"])]
      = ([("K", ["a", "b"]), ("L", ["c"])] : List (String × List String)).map
          (fun p => (p.1, p.2.headD ""))
    ∧ (∀ (t : RequestEntryM) (r : Request) (u : String),
      t.request = some r → r.url = some u →
      ∃ e, requestEntryEncoderDecoder.Encode t = .ok e
        ∧ e.requestHeader = httpHeaderToMap r.header) :=
  encode_header_first_value [("K", ["a", "b"]), ("L", ["c"])] (by decide)

/-- Closed form of `Decode ∘ Encode` on an entry whose request `r` is present
with URL string `u`: the rebuilt request keeps method (after empty-method
defaulting), URL and body bytes but has an empty header; a response is rebuilt
exactly when a positive status code was recorded; the error survives as a
text-backed error. -/
def roundTripResult (t : RequestEntryM) (r : Request) (u : String) : RequestEntryM :=
  { request := some
      { method := if r.method = "" then "GET" else r.method,
        url := some u, header := [], body := some (r.body.getD []) },
    response :=
      match t.response with
      | none => none
      | some w =>
        if 0 < w.statusCode then
          some {
            status := w.proto, statusCode := w.statusCode, proto := w.proto,
            protoMajor := w.protoMajor, protoMinor := w.protoMinor,
            header := mapToHTTPHeader (httpHeaderToMap w.header),
            body := some (w.body.getD []),
            contentLength := ((w.body.getD []).length : Int) }
        else
          none,
    error := t.error.map (fun er => GoError.msg (goErrorText er)) }

theorem decode_encode_eq_roundTripResult (t : RequestEntryM) (r : Request) (u : String)
    (hreq : t.request = some r) (hurl : r.url = some u) :
    (requestEntryEncoderDecoder.Encode t).bind requestEntryEncoderDecoder.Decode
      = .ok (roundTripResult t r u) := by
  obtain ⟨treq, tresp, terr⟩ := t
  obtain ⟨m, url, hd, bd⟩ := r
  simp only at hreq hurl
  subst hreq
  subst hurl
  cases tresp with
  | none =>
    cases terr with
    | none => rfl
    | some er => rfl
  | some w =>
    cases terr with
    | none => rfl
    | some er => rfl

/-- C6 counterexample: the transaction whose request has method `""` and a
header binding `K ↦ ["v"]` (request non-nil, URL non-nil) is decoded after
encoding to a request with method `"GET"` and NO headers, so `Decode ∘ Encode`
preserves neither the request method nor the request header pairs. -/
theorem decode_encode_roundTrip_cx :
    (requestEntryEncoderDecoder.Encode
        ⟨some ⟨"", some "http://example.com/a", [("K", ["v"])], some [1]⟩,
          none, none⟩).bind requestEntryEncoderDecoder.Decode
      = .ok ⟨some ⟨"GET", some "http://example.com/a", [], some [1]⟩, none, none⟩
    ∧ ("GET" : String) ≠ "" ∧ ([] : HeaderMap) ≠ [("K", ["v"])] :=
  ⟨rfl, by decide, by decide⟩

/-- C6 amended: for every transaction whose request is present with a non-nil
URL and a NONEMPTY method, `Decode (Encode t)` succeeds and reproduces the
request method, the URL string and the request body bytes — but the decoded
request's headers are always empty (request headers are not restored);
a response object is present iff a positive status code was recorded, and it
reproduces the status code, the response body bytes and the response header
pairs as flattened by `httpHeaderToMap` (exactly the original pairs whenever
the names are distinct and single-valued); error presence and message text
are preserved. -/
theorem decode_encode_roundTrip (t : RequestEntryM) (r : Request) (u : String)
    (hreq : t.request = some r) (hurl : r.url = some u) (hm : r.method ≠ "") :
    ∃ re : RequestEntryM,
      (requestEntryEncoderDecoder.Encode t).bind requestEntryEncoderDecoder.Decode
        = .ok re
      ∧ re.request = some
          { method := r.method, url := some u, header := [],
            body := some (r.body.getD []) }
      ∧ (re.response.isSome ↔ ∃ w, t.response = some w ∧ 0 < w.statusCode)
      ∧ (∀ w, t.response = some w → 0 < w.statusCode →
          ∃ dw : Response, re.response = some dw
            ∧ dw.statusCode = w.statusCode
            ∧ dw.body = some (w.body.getD [])
            ∧ dw.header = mapToHTTPHeader (httpHeaderToMap w.header)
            ∧ ((w.header.map Prod.fst).Nodup →
                (∀ p ∈ w.header, ∃ v, p.2 = [v]) → dw.header = w.header))
      ∧ (re.error.isSome ↔ t.error.isSome)
      ∧ (∀ er, t.error = some er →
          re.error = some (GoError.msg (goErrorText er))) := by
  refine ⟨roundTripResult t r u,
    decode_encode_eq_roundTripResult t r u hreq hurl, ?_, ?_, ?_, ?_, ?_⟩
  · simp [roundTripResult, hm]
  · unfold roundTripResult
    cases ht : t.response with
    | none => simp
    | some w =>
      by_cases hpos : 0 < w.statusCode
      · simp [hpos]
      · simp [hpos]
  · intro w ht hpos
    unfold roundTripResult
    rw [ht]
    simp only [hpos, if_pos]
    exact ⟨_, rfl, rfl, rfl, rfl,
      fun hn hs => mapToHTTPHeader_httpHeaderToMap w.header hn hs⟩
  · unfold roundTripResult
    cases t.error with
    | none => simp
    | some er => simp
  · intro er ht
    unfold roundTripResult
    rw [ht]
    rfl

/-- Concrete transaction for the C6 witness. -/
def c6entry : RequestEntryM :=
  ⟨some ⟨"POST", some "http://example.com/p", [("A", ["1"])], some [7]⟩,
    some ⟨"200 OK", 200, "HTTP/1.1", 1, 1, [("B", ["2"])], some [8], 1⟩,
    some (GoError.msg "bad")⟩

/-- Witness for C6's amended statement at the concrete transaction
`c6entry`. -/
theorem decode_encode_roundTrip_witness :
    ∃ re : RequestEntryM,
      (requestEntryEncoderDecoder.Encode c6entry).bind requestEntryEncoderDecoder.Decode
        = .ok re
      ∧ re.request = some
          { method := "POST", url := some "http://example.com/p",
            header := [], body := some [7] }
      ∧ (re.response.isSome ↔ ∃ w, c6entry.response = some w ∧ 0 < w.statusCode)
      ∧ (∀ w, c6entry.response = some w → 0 < w.statusCode →
          ∃ dw : Response, re.response = some dw
            ∧ dw.statusCode = w.statusCode
            ∧ dw.body = some (w.body.getD [])
            ∧ dw.header = mapToHTTPHeader (httpHeaderToMap w.header)
            ∧ ((w.header.map Prod.fst).Nodup →
                (∀ p ∈ w.header, ∃ v, p.2 = [v]) → dw.header = w.header))
      ∧ (re.error.isSome ↔ c6entry.error.isSome)
      ∧ (∀ er, c6entry.error = some er →
          re.error = some (GoError.msg (goErrorText er))) :=
  decode_encode_roundTrip c6entry
    ⟨"POST", some "http://example.com/p", [("A", ["1"])], some [7]⟩
    "http://example.com/p" rfl rfl (by decide)

/-! ## Storage backends (cacher.go)

The memory backend delegates to github.com/patrickmn/go-cache (external):
items live in a map from key to (value, absolute expiration in UnixNano,
`0` meaning no expiration); `NewMemoryCache` configures the default
expiration to `cache.NoExpiration` (-1). The file backend's filesystem is a
map from path to the msgpack-encoded `fileCacheEntry` (msgpack modelled as
the identity on the entry structure); the clock (`TimeNowFunc`) is the
explicit `now` argument. The redis backend delegates TTL to the store's
native lazy expiration; `redis.Nil` on a missing or expired key becomes
`ErrCacheKeyNotFound`. All times are `Int` nanoseconds. -/

/-- `ErrCacheKeyNotFound`. -/
def ErrCacheKeyNotFound : GoError := GoError.msg "cache key not found"

namespace MemoryCache

/-- `cache.NoExpiration`, the default expiration `NewMemoryCache` configures. -/
def noExpiration : Int := -1

/-- go-cache `Set` as called by `MemoryCache.Set`: a zero duration selects
the configured default (no expiration); a positive duration stores the
absolute expiry `now + ttl`; expiration `0` marks a non-expiring item. -/
def Set (items : List (String × List Nat × Int)) (now : Int) (key : String)
    (value : List Nat) (ttl : Int) : List (String × List Nat × Int) :=
  let d := if ttl = 0 then noExpiration else ttl
  let e := if 0 < d then now + d else 0
  assocSet items key (value, e)

/-- go-cache `Get` as wrapped by `MemoryCache.Get`: a missing item, or one
whose positive expiration lies strictly in the past, is
`ErrCacheKeyNotFound`. -/
def Get (items : List (String × List Nat × Int)) (now : Int) (key : String) :
    Except GoError (List Nat) :=
  match assocFind items key with
  | none => .error ErrCacheKeyNotFound
  | some (v, e) =>
    if 0 < e ∧ e < now then .error ErrCacheKeyNotFound else .ok v

end MemoryCache

/-- The on-disk `fileCacheEntry`: key, value, write time and absolute expiry
(UnixNano). -/
structure fileCacheEntry where
  key : String
  value : List Nat
  start : Int
  ttl : Int
deriving DecidableEq

/-- `FileCache` configuration (the clock is passed explicitly; the
permission bits do not affect behaviour). -/
structure FileCache where
  rootDir : String
deriving DecidableEq

/-- `path.Join(rootDir, key + ".cache")`. -/
def FileCache.path (c : FileCache) (key : String) : String :=
  c.rootDir ++ "/" ++ key ++ ".cache"

/-- `time.Unix(nsec/1e9, nsec%1e9).UnixNano()`. -/
def timeUnixNano (nsec : Int) : Int :=
  1000000000 * (nsec / 1000000000) + nsec % 1000000000

theorem timeUnixNano_id (nsec : Int) : timeUnixNano nsec = nsec := by
  unfold timeUnixNano
  omega

/-- `FileCache.Get`: a missing file is `ErrCacheKeyNotFound`; otherwise the
entry is decoded and returned while its recorded expiry is not in the past;
an expired file is removed by this read and `ErrCacheKeyNotFound` is
returned. Returns the result and the filesystem after the read. -/
def FileCache.Get (c : FileCache) (fs : List (String × fileCacheEntry))
    (now : Int) (key : String) :
    Except GoError (List Nat) × List (String × fileCacheEntry) :=
  let p := c.path key
  match assocFind fs p with
  | none => (.error ErrCacheKeyNotFound, fs)
  | some e =>
    let ttlTime := timeUnixNano e.ttl
    if 0 ≤ ttlTime - now then
      (.ok e.value, fs)
    else
      (.error ErrCacheKeyNotFound, assocErase fs p)

/-- `FileCache.Set`: writes the entry with `Start = now` and absolute expiry
`TTL = now + ttl` to the key's file. -/
def FileCache.Set (c : FileCache) (fs : List (String × fileCacheEntry))
    (now : Int) (key : String) (value : List Nat) (ttl : Int) :
    Except GoError Unit × List (String × fileCacheEntry) :=
  let e : fileCacheEntry := ⟨key, value, now, now + ttl⟩
  (.ok (), assocSet fs (c.path key) e)

/-- One stored value in the modelled redis server, with its optional
absolute expiry. -/
structure redisEntry where
  value : List Nat
  expireAt : Option Int
deriving DecidableEq

/-- Redis `SET key value [expiry ttl]`: a positive ttl sets an absolute
expiry, otherwise the key does not expire. -/
def redisServerSet (st : List (String × redisEntry)) (now : Int) (k : String)
    (v : List Nat) (ttl : Int) : List (String × redisEntry) :=
  assocSet st k ⟨v, if 0 < ttl then some (now + ttl) else none⟩

/-- Redis `GET`: a missing key, or one whose expiry lies strictly in the
past (lazy expiration), yields the nil reply. -/
def redisServerGet (st : List (String × redisEntry)) (now : Int) (k : String) :
    Option (List Nat) :=
  match assocFind st k with
  | none => none
  | some e =>
    match e.expireAt with
    | some t => if t < now then none else some e.value
    | none => some e.value

namespace RedisCache

/-- `RedisCache.Get`: prefix the key, translate the nil reply to
`ErrCacheKeyNotFound`. -/
def Get (pre : String) (st : List (String × redisEntry)) (now : Int)
    (key : String) : Except GoError (List Nat) :=
  match redisServerGet st now (pre ++ key) with
  | none => .error ErrCacheKeyNotFound
  | some v => .ok v

/-- `RedisCache.Set`: prefix the key and store with the given ttl. -/
def Set (pre : String) (st : List (String × redisEntry)) (now : Int)
    (key : String) (value : List Nat) (ttl : Int) :
    Except GoError Unit × List (String × redisEntry) :=
  (.ok (), redisServerSet st now (pre ++ key) value ttl)

end RedisCache

/-- C8: the uniform storage contract across the three backends. For memory,
file and redis alike: `Get` on an absent key is `ErrCacheKeyNotFound`;
`Set(key, value, ttl)` followed immediately by `Get(key)` returns exactly the
stored bytes; after the TTL elapses (relative to a nonnegative wall clock)
`Get` is `ErrCacheKeyNotFound` — and for the file backend the read that
discovers the expiry deletes the file, and that read and every subsequent
read return `ErrCacheKeyNotFound`. -/
theorem cacher_backend_contract :
    (∀ (items : List (String × List Nat × Int)) (now : Int) (k : String),
      assocFind items k = none →
      MemoryCache.Get items now k = .error ErrCacheKeyNotFound)
    ∧ (∀ (items : List (String × List Nat × Int)) (now : Int) (k : String)
        (v : List Nat) (ttl : Int), 0 ≤ ttl →
      MemoryCache.Get (MemoryCache.Set items now k v ttl) now k = .ok v)
    ∧ (∀ (items : List (String × List Nat × Int)) (now now2 : Int) (k : String)
        (v : List Nat) (ttl : Int), 0 ≤ now → 0 < ttl → now + ttl < now2 →
      MemoryCache.Get (MemoryCache.Set items now k v ttl) now2 k
        = .error ErrCacheKeyNotFound)
    ∧ (∀ (c : FileCache) (fs : List (String × fileCacheEntry)) (now : Int)
        (k : String),
      assocFind fs (c.path k) = none →
      (FileCache.Get c fs now k).1 = .error ErrCacheKeyNotFound)
    ∧ (∀ (c : FileCache) (fs : List (String × fileCacheEntry)) (now : Int)
        (k : String) (v : List Nat) (ttl : Int), 0 ≤ ttl →
      (FileCache.Get c (FileCache.Set c fs now k v ttl).2 now k).1 = .ok v)
    ∧ (∀ (c : FileCache) (fs : List (String × fileCacheEntry)) (now now2 : Int)
        (k : String) (v : List Nat) (ttl : Int), now + ttl < now2 →
      FileCache.Get c (FileCache.Set c fs now k v ttl).2 now2 k
        = (.error ErrCacheKeyNotFound,
            assocErase (FileCache.Set c fs now k v ttl).2 (c.path k))
      ∧ (∀ now3 : Int,
        (FileCache.Get c
          (FileCache.Get c (FileCache.Set c fs now k v ttl).2 now2 k).2
          now3 k).1 = .error ErrCacheKeyNotFound))
    ∧ (∀ (pre : String) (st : List (String × redisEntry)) (now : Int)
        (k : String),
      assocFind st (pre ++ k) = none →
      RedisCache.Get pre st now k = .error ErrCacheKeyNotFound)
    ∧ (∀ (pre : String) (st : List (String × redisEntry)) (now : Int)
        (k : String) (v : List Nat) (ttl : Int), 0 ≤ ttl →
      RedisCache.Get pre (RedisCache.Set pre st now k v ttl).2 now k = .ok v)
    ∧ (∀ (pre : String) (st : List (String × redisEntry)) (now now2 : Int)
        (k : String) (v : List Nat) (ttl : Int), 0 < ttl → now + ttl < now2 →
      RedisCache.Get pre (RedisCache.Set pre st now k v ttl).2 now2 k
        = .error ErrCacheKeyNotFound) := by
  refine ⟨?_, ?_, ?_, ?_, ?_, ?_, ?_, ?_, ?_⟩
  · intro items now k habsent
    simp [MemoryCache.Get, habsent]
  · intro items now k v ttl httl
    simp only [MemoryCache.Get, MemoryCache.Set, MemoryCache.noExpiration,
      assocFind_assocSet]
    split_ifs with h1 h2 h3 h4 <;> first | rfl | (exfalso; omega)
  · intro items now now2 k v ttl hnow httl helapsed
    simp only [MemoryCache.Get, MemoryCache.Set, MemoryCache.noExpiration,
      assocFind_assocSet]
    split_ifs with h1 h2 h3 h4 <;> first | rfl | (exfalso; omega)
  · intro c fs now k habsent
    simp [FileCache.Get, habsent]
  · intro c fs now k v ttl httl
    simp only [FileCache.Get, FileCache.Set, assocFind_assocSet, timeUnixNano_id]
    split_ifs with h1 <;> first | rfl | (exfalso; omega)
  · intro c fs now now2 k v ttl helapsed
    have hstep : FileCache.Get c (FileCache.Set c fs now k v ttl).2 now2 k
        = (.error ErrCacheKeyNotFound,
            assocErase (FileCache.Set c fs now k v ttl).2 (c.path k)) := by
      simp only [FileCache.Get, FileCache.Set, assocFind_assocSet, timeUnixNano_id]
      split_ifs with h1 <;> first | rfl | (exfalso; omega)
    refine ⟨hstep, ?_⟩
    intro now3
    rw [hstep]
    simp [FileCache.Get, assocFind_assocErase]
  · intro pre st now k habsent
    simp [RedisCache.Get, redisServerGet, habsent]
  · intro pre st now k v ttl httl
    by_cases hpos : (0:Int) < ttl
    · simp only [RedisCache.Get, RedisCache.Set, redisServerGet, redisServerSet,
        assocFind_assocSet, if_pos hpos]
      have hno : ¬ (now + ttl < now) := by omega
      simp [hno]
    · simp only [RedisCache.Get, RedisCache.Set, redisServerGet, redisServerSet,
        assocFind_assocSet, if_neg hpos]
  · intro pre st now now2 k v ttl httl helapsed
    simp only [RedisCache.Get, RedisCache.Set, redisServerGet, redisServerSet,
      assocFind_assocSet, if_pos httl]
    simp [helapsed]

/-- Witness for C8 at concrete states, keys, values and times, for all three
backends. -/
theorem cacher_backend_contract_witness :
    MemoryCache.Get [] 0 "k" = .error ErrCacheKeyNotFound
    ∧ MemoryCache.Get (MemoryCache.Set [] 0 "k" [1, 2] 5) 0 "k" = .ok [1, 2]
    ∧ MemoryCache.Get (MemoryCache.Set [] 0 "k" [1, 2] 5) 6 "k"
        = .error ErrCacheKeyNotFound
    ∧ (FileCache.Get ⟨"root"⟩ [] 0 "k").1 = .error ErrCacheKeyNotFound
    ∧ (FileCache.Get ⟨"root"⟩ (FileCache.Set ⟨"root"⟩ [] 0 "k" [1, 2] 5).2 0 "k").1
        = .ok [1, 2]
    ∧ FileCache.Get ⟨"root"⟩ (FileCache.Set ⟨"root"⟩ [] 0 "k" [1, 2] 5).2 6 "k"
        = (.error ErrCacheKeyNotFound,
            assocErase (FileCache.Set ⟨"root"⟩ [] 0 "k" [1, 2] 5).2
              (FileCache.path ⟨"root"⟩ "k"))
    ∧ (FileCache.Get ⟨"root"⟩
        (FileCache.Get ⟨"root"⟩ (FileCache.Set ⟨"root"⟩ [] 0 "k" [1, 2] 5).2 6 "k").2
        7 "k").1 = .error ErrCacheKeyNotFound
    ∧ RedisCache.Get "p:" [] 0 "k" = .error ErrCacheKeyNotFound
    ∧ RedisCache.Get "p:" (RedisCache.Set "p:" [] 0 "k" [1, 2] 5).2 0 "k" = .ok [1, 2]
    ∧ RedisCache.Get "p:" (RedisCache.Set "p:" [] 0 "k" [1, 2] 5).2 6 "k"
        = .error ErrCacheKeyNotFound := by
  have h := cacher_backend_contract
  have hfile := h.2.2.2.2.2.1 ⟨"root"⟩ [] 0 6 "k" [1, 2] 5 (by omega)
  exact ⟨h.1 [] 0 "k" rfl,
    h.2.1 [] 0 "k" [1, 2] 5 (by omega),
    h.2.2.1 [] 0 6 "k" [1, 2] 5 (by omega) (by omega) (by omega),
    h.2.2.2.1 ⟨"root"⟩ [] 0 "k" rfl,
    h.2.2.2.2.1 ⟨"root"⟩ [] 0 "k" [1, 2] 5 (by omega),
    hfile.1,
    hfile.2 7,
    h.2.2.2.2.2.2.1 "p:" [] 0 "k" rfl,
    h.2.2.2.2.2.2.2.1 "p:" [] 0 "k" [1, 2] 5 (by omega),
    h.2.2.2.2.2.2.2.2 "p:" [] 0 6 "k" [1, 2] 5 (by omega) (by omega)⟩

/-! ## Body-size interceptor (body_size.go) -/

/-- `BodySizeOption`: the maximum declared response size in bytes. -/
structure BodySizeOption where
  maxBodySize : Nat
deriving DecidableEq

/-- `strconv.ParseUint(s, 10, 64)` (strconv, external): decimal digits only,
error on an empty or non-numeric string, range error at 2^64. -/
def parseUint (s : String) : Except GoError Nat :=
  if s = "" then
    .error (GoError.msg ("strconv.ParseUint: parsing " ++ s ++ ": invalid syntax"))
  else if ¬ s.toList.all Char.isDigit then
    .error (GoError.msg ("strconv.ParseUint: parsing " ++ s ++ ": invalid syntax"))
  else if s.toList.foldl (fun a c => a * 10 + (c.toNat - 48)) 0 < 2 ^ 64 then
    .ok (s.toList.foldl (fun a c => a * 10 + (c.toNat - 48)) 0)
  else
    .error (GoError.msg ("strconv.ParseUint: parsing " ++ s ++ ": value out of range"))

/-- `BodySizeHandler`: calls downstream; a downstream error is returned
as-is. Otherwise the `Content-Length` response header is parsed (a parse
failure is returned wrapped, with a nil response); a declared length above
`MaxBodySize` yields a nil response and the size-violation error, and
anything else passes the response through unchanged. (A nil response with a
nil error would dereference a nil pointer in the source; the model returns a
distinguished panic marker there.) -/
def BodySizeHandler (option : BodySizeOption) (req : Request)
    (downstream : Request → Option Response × Option GoError) :
    Option Response × Option GoError :=
  let r := downstream req
  match r.2 with
  | some e => (r.1, some e)
  | none =>
    match r.1 with
    | none => (none, some (GoError.msg "panic: nil pointer dereference"))
    | some w =>
      match parseUint (headerGet w.header "Content-Length") with
      | .error e =>
        (none, some (GoError.wrap e "Parse the data size of the response content"))
      | .ok contentLength =>
        if option.maxBodySize < contentLength then
          (none, some (GoError.msg "The server response data is too large"))
        else
          (some w, none)

/-- C9: when downstream returns a response without error and its declared
`Content-Length` parses to `c`: if `c` exceeds `MaxBodySize` the handler
returns a nil response and the fixed size-violation error (conjunct 1); if
`c` is at or below `MaxBodySize` the response passes through unchanged
(conjunct 2); and the size-violation error is a bare sentinel that
`errors.Is`-matches no other error, so it is distinct from any transport
error (conjunct 3). -/
theorem bodySizeHandler_limit (option : BodySizeOption) (req : Request)
    (downstream : Request → Option Response × Option GoError)
    (w : Response) (c : Nat)
    (hdown : downstream req = (some w, none))
    (hparse : parseUint (headerGet w.header "Content-Length") = .ok c) :
    (option.maxBodySize < c →
      BodySizeHandler option req downstream
        = (none, some (GoError.msg "The server response data is too large")))
    ∧ (c ≤ option.maxBodySize →
      BodySizeHandler option req downstream = (some w, none))
    ∧ (∀ t : GoError, t ≠ GoError.msg "The server response data is too large" →
      errorsIs (GoError.msg "The server response data is too large") t = false) := by
  refine ⟨?_, ?_, ?_⟩
  · intro hbig
    simp only [BodySizeHandler, hdown, hparse]
    simp [hbig]
  · intro hsmall
    simp only [BodySizeHandler, hdown, hparse]
    have : ¬ option.maxBodySize < c := by omega
    simp [this]
  · intro t ht
    rw [errorsIs]
    rw [if_neg (Ne.symm ht)]
    intro c2 a h
    exact GoError.noConfusion h

/-- Witness for C9: limit 10 against a declared length of 15 (rejected with
the size-violation error) and a declared length of 5 (passed through). -/
theorem bodySizeHandler_limit_witness :
    BodySizeHandler ⟨10⟩ ⟨"GET", some "http://example.com", [], none⟩
      (fun _ => (some ⟨"200 OK", 200, "HTTP/1.1", 1, 1,
        [("Content-Length", ["15"])], none, 15⟩, none))
      = (none, some (GoError.msg "The server response data is too large"))
    ∧ BodySizeHandler ⟨10⟩ ⟨"GET", some "http://example.com", [], none⟩
      (fun _ => (some ⟨"200 OK", 200, "HTTP/1.1", 1, 1,
        [("Content-Length", ["5"])], none, 5⟩, none))
      = (some ⟨"200 OK", 200, "HTTP/1.1", 1, 1,
          [("Content-Length", ["5"])], none, 5⟩, none) := by
  constructor
  · exact (bodySizeHandler_limit ⟨10⟩ ⟨"GET", some "http://example.com", [], none⟩
      _ ⟨"200 OK", 200, "HTTP/1.1", 1, 1, [("Content-Length", ["15"])], none, 15⟩
      15 rfl rfl).1 (by decide)
  · exact (bodySizeHandler_limit ⟨10⟩ ⟨"GET", some "http://example.com", [], none⟩
      _ ⟨"200 OK", 200, "HTTP/1.1", 1, 1, [("Content-Length", ["5"])], none, 5⟩
      5 rfl rfl).2.1 (by decide)

/-- C10: `FileCache.Set(key, value, 0)` records an absolute expiry equal to
the write time (conjunct 1), so a `Get` whose clock observes any strictly
later time treats the entry as expired, deletes its file and returns
`ErrCacheKeyNotFound` (conjunct 2), while a `Get` at the write time itself
still succeeds (conjunct 3); by contrast `MemoryCache.Set` with a zero TTL
stores the value without expiration — `Get` succeeds at every observation
time (conjunct 4). -/
theorem fileCache_zero_ttl_immediate_expiry :
    (∀ (c : FileCache) (fs : List (String × fileCacheEntry)) (now : Int)
        (k : String) (v : List Nat),
      assocFind (FileCache.Set c fs now k v 0).2 (c.path k)
        = some ⟨k, v, now, now⟩)
    ∧ (∀ (c : FileCache) (fs : List (String × fileCacheEntry)) (now now2 : Int)
        (k : String) (v : List Nat), now < now2 →
      FileCache.Get c (FileCache.Set c fs now k v 0).2 now2 k
        = (.error ErrCacheKeyNotFound,
            assocErase (FileCache.Set c fs now k v 0).2 (c.path k))
      ∧ assocFind (FileCache.Get c (FileCache.Set c fs now k v 0).2 now2 k).2
          (c.path k) = none)
    ∧ (∀ (c : FileCache) (fs : List (String × fileCacheEntry)) (now : Int)
        (k : String) (v : List Nat),
      (FileCache.Get c (FileCache.Set c fs now k v 0).2 now k).1 = .ok v)
    ∧ (∀ (items : List (String × List Nat × Int)) (now now2 : Int)
        (k : String) (v : List Nat),
      MemoryCache.Get (MemoryCache.Set items now k v 0) now2 k = .ok v) := by
  refine ⟨?_, ?_, ?_, ?_⟩
  · intro c fs now k v
    simp only [FileCache.Set, assocFind_assocSet, add_zero]
  · intro c fs now now2 k v hlt
    have hstep : FileCache.Get c (FileCache.Set c fs now k v 0).2 now2 k
        = (.error ErrCacheKeyNotFound,
            assocErase (FileCache.Set c fs now k v 0).2 (c.path k)) := by
      simp only [FileCache.Get, FileCache.Set, assocFind_assocSet, timeUnixNano_id]
      split_ifs with h1 <;> first | rfl | (exfalso; omega)
    refine ⟨hstep, ?_⟩
    rw [hstep]
    exact assocFind_assocErase _ _
  · intro c fs now k v
    simp only [FileCache.Get, FileCache.Set, assocFind_assocSet, timeUnixNano_id]
    split_ifs with h1 <;> first | rfl | (exfalso; omega)
  · intro items now now2 k v
    simp only [MemoryCache.Get, MemoryCache.Set, MemoryCache.noExpiration,
      assocFind_assocSet]
    split_ifs with h1 h2 <;> first | rfl | (exfalso; omega)

/-- Witness for C10 at concrete inputs: write at time 0 with TTL 0; the file
backend expires at time 1 (and the file is gone), while the memory backend
still serves the value at time 1000000. -/
theorem fileCache_zero_ttl_immediate_expiry_witness :
    assocFind (FileCache.Set ⟨"root"⟩ [] 0 "k" [9] 0).2 (FileCache.path ⟨"root"⟩ "k")
      = some ⟨"k", [9], 0, 0⟩
    ∧ FileCache.Get ⟨"root"⟩ (FileCache.Set ⟨"root"⟩ [] 0 "k" [9] 0).2 1 "k"
        = (.error ErrCacheKeyNotFound,
            assocErase (FileCache.Set ⟨"root"⟩ [] 0 "k" [9] 0).2
              (FileCache.path ⟨"root"⟩ "k"))
    ∧ (FileCache.Get ⟨"root"⟩ (FileCache.Set ⟨"root"⟩ [] 0 "k" [9] 0).2 0 "k").1
        = .ok [9]
    ∧ MemoryCache.Get (MemoryCache.Set [] 0 "k" [9] 0) 1000000 "k" = .ok [9] := by
  have h := fileCache_zero_ttl_immediate_expiry
  exact ⟨h.1 ⟨"root"⟩ [] 0 "k" [9],
    (h.2.1 ⟨"root"⟩ [] 0 1 "k" [9] (by omega)).1,
    h.2.2.1 ⟨"root"⟩ [] 0 "k" [9],
    h.2.2.2 [] 0 1000000 "k" [9]⟩
